import Mathlib

/-!
Verification of the Rhea RDF resolution engine (Koeng101/rhea, models.go).

The repository contains two revisions of the resolver `ParseRhea`:
an earlier two-pass variant that eagerly stitches generic-polymer compounds
to their reactive parts through two auxiliary maps (`compoundMap`,
`reactivePartMap`), and the final one-pass variant that defers all
cross-references to the consumer.  Both are embedded here, in the
namespaces `TwoPass` and `OnePass` respectively.

The XML deserializer (`encoding/xml`) and the gzip reader are external
collaborators; they are modelled by an arbitrary pure function
`unmarshal : List UInt8 → UnmarshalResult` supplied as a parameter.
Go byte-level string slicing (`s[8:]`, `s[23:]`) is embedded as the total
function `goSlice` whose out-of-range branch surfaces as the dedicated
error `ParseError.sliceErr`, so that reachability of the panic branch is
a provable statement.  `strconv.Atoi` is embedded as `goAtoi`, including
the 64-bit range check.  Go strings are modelled as Lean `String`s with
byte indexing replaced by character indexing (all strings inspected by
the resolver are ASCII URIs and tag names).
-/

/-! ### String helpers (Go `strings` / `strconv`) -/

/-- Checks that the first list is a prefix of the second (Boolean). -/
def listPrefixCheck : List Char → List Char → Bool
  | [], _ => true
  | _ :: _, [] => false
  | a :: as, b :: bs => a = b && listPrefixCheck as bs

/-- Checks that `pat` occurs as a contiguous sublist of `l` (Boolean). -/
def goContainsList (pat : List Char) : List Char → Bool
  | [] => listPrefixCheck pat []
  | c :: rest => listPrefixCheck pat (c :: rest) || goContainsList pat rest

/-- Go `strings.Contains s pat`: `pat` occurs as a substring of `s`. -/
def stringContains (s pat : String) : Bool :=
  goContainsList pat.data s.data

/-- Boolean test that `pat` is a prefix of `s` (used to state the spec's
"begins with" reading of the contains-property gate). -/
def strStartsWith (s pat : String) : Bool :=
  listPrefixCheck pat.data s.data

/-- Drops the first `n` characters of `s`. -/
def dropStr (s : String) (n : Nat) : String :=
  String.mk (s.data.drop n)

/-- Total embedding of the Go slice expression `s[n:]`.  Go panics when
`n > len(s)`; here that branch returns `none`. -/
def goSlice (s : String) (n : Nat) : Option String :=
  if n ≤ s.data.length then some (dropStr s n) else none

/-- Accumulating decimal-digit parser; `none` on any non-digit. -/
def digitsToNatAux (acc : Nat) : List Char → Option Nat
  | [] => some acc
  | c :: rest => if c.isDigit then digitsToNatAux (acc * 10 + (c.toNat - 48)) rest else none

/-- Parses a non-empty all-digit list; `none` on empty or invalid input. -/
def digitsToNat : List Char → Option Nat
  | [] => none
  | l => digitsToNatAux 0 l

def int64Min : Int := -(2 ^ 63)

def int64Max : Int := 2 ^ 63 - 1

/-- Go `strconv.Atoi`: optional sign, then decimal digits, value required
to fit in a 64-bit `int`; `none` models a non-nil error. -/
def goAtoi (s : String) : Option Int :=
  match s.data with
  | [] => none
  | c :: rest =>
    let p : Bool × List Char :=
      if c = '-' then (true, rest)
      else if c = '+' then (false, rest)
      else (false, c :: rest)
    match digitsToNat p.2 with
    | none => none
    | some n =>
      let v : Int := if p.1 then -(n : Int) else (n : Int)
      if int64Min ≤ v ∧ v ≤ int64Max then some v else none

/-! ### Generic fold combinators -/

/-- Concatenates the images of `f` over a list (the shape in which the
resolver's append-only output collections are characterized). -/
def flatMapL (f : α → List γ) : List α → List γ
  | [] => []
  | a :: as => f a ++ flatMapL f as

/-- Error-propagating left fold: the Go pattern of a loop whose body may
`return` early with an error. -/
def exFold (f : β → α → Except ε β) (acc : β) : List α → Except ε β
  | [] => .ok acc
  | a :: as =>
    match f acc a with
    | .error e => .error e
    | .ok acc' => exFold f acc' as

/-! ### Flat record model (the lower-level structs of models.go)

Every field carries its Go zero value as a default, mirroring Go struct
literals that omit fields.  The `xml.Name` metadata field is retained
only on `ContainsX`, the one place the resolver reads it. -/

structure XmlName where
  Space : String := ""
  Local : String := ""
deriving DecidableEq, Repr

structure Citation where
  Resource : String := ""
deriving DecidableEq, Repr

structure Substrate where
  Resource : String := ""
deriving DecidableEq, Repr

structure Product where
  Resource : String := ""
deriving DecidableEq, Repr

structure SubstrateOrProduct where
  Resource : String := ""
deriving DecidableEq, Repr

structure Subclass where
  Resource : String := ""
deriving DecidableEq, Repr

structure EC where
  Resource : String := ""
deriving DecidableEq, Repr

structure Status where
  Resource : String := ""
deriving DecidableEq, Repr

structure CompoundXml where
  Resource : String := ""
deriving DecidableEq, Repr

structure Side where
  Resource : String := ""
deriving DecidableEq, Repr

structure SeeAlso where
  Resource : String := ""
deriving DecidableEq, Repr

structure TransformableTo where
  Resource : String := ""
deriving DecidableEq, Repr

structure Contains where
  Resource : String := ""
deriving DecidableEq, Repr

structure ContainsX where
  XMLName : XmlName := {}
  Content : String := ""
deriving DecidableEq, Repr

structure ChebiXml where
  Resource : String := ""
deriving DecidableEq, Repr

structure UnderlyingChebi where
  Resource : String := ""
deriving DecidableEq, Repr

structure ReactivePartXml where
  Resource : String := ""
deriving DecidableEq, Repr

structure Location where
  Resource : String := ""
deriving DecidableEq, Repr

structure Description where
  About : String := ""
  Id : Int := 0
  Accession : String := ""
  Equation : String := ""
  HtmlEquation : String := ""
  IsChemicallyBalanced : Bool := false
  IsTransport : Bool := false
  Citations : List Citation := []
  Substrates : List Substrate := []
  Products : List Product := []
  SubstrateOrProducts : List SubstrateOrProduct := []
  Subclass : List Subclass := []
  Comment : String := ""
  EC : EC := {}
  Status : Status := {}
  Compound : CompoundXml := {}
  Side : Side := {}
  SeeAlsos : SeeAlso := {}
  TransformableTo : TransformableTo := {}
  CuratedOrder : Int := 0
  Contains : Contains := {}
  ContainsX : List ContainsX := []
  Name : String := ""
  HtmlName : String := ""
  Formula : String := ""
  Charge : String := ""
  Chebi : ChebiXml := {}
  ReactivePartXml : ReactivePartXml := {}
  Position : String := ""
  UnderlyingChebi : UnderlyingChebi := {}
  PolymerizationIndex : String := ""
  Location : Location := {}
deriving DecidableEq, Repr

def Description.CitationStrings (d : Description) : List String :=
  d.Citations.map (fun x => x.Resource)

def Description.SubstrateStrings (d : Description) : List String :=
  d.Substrates.map (fun x => x.Resource)

def Description.ProductStrings (d : Description) : List String :=
  d.Products.map (fun x => x.Resource)

def Description.SubstrateOrProductStrings (d : Description) : List String :=
  d.SubstrateOrProducts.map (fun x => x.Resource)

structure RheaRdf where
  Descriptions : List Description := []
deriving DecidableEq, Repr

/-! ### Type-URI constants of the subclass switch -/

def uriDirectionalReaction : String := "http://rdf.rhea-db.org/DirectionalReaction"

def uriBidirectionalReaction : String := "http://rdf.rhea-db.org/BidirectionalReaction"

def uriSmallMolecule : String := "http://rdf.rhea-db.org/SmallMolecule"

def uriPolymer : String := "http://rdf.rhea-db.org/Polymer"

def uriGenericPolypeptide : String := "http://rdf.rhea-db.org/GenericPolypeptide"

def uriGenericPolynucleotide : String := "http://rdf.rhea-db.org/GenericPolynucleotide"

def uriGenericHeteropolysaccharide : String := "http://rdf.rhea-db.org/GenericHeteropolysaccharide"

def uriReactivePart : String := "http://rdf.rhea-db.org/ReactivePart"

/-! ### Shared higher-level structs and errors -/

/-- Reaction record; both repository revisions declare this struct with
identical fields and construct it with identical literals. -/
structure Reaction where
  Id : Int := 0
  Directional : Bool := false
  Accession : String := ""
  Status : String := ""
  Comment : String := ""
  Equation : String := ""
  HtmlEquation : String := ""
  IsChemicallyBalanced : Bool := false
  IsTransport : Bool := false
  Ec : String := ""
  Citations : List String := []
  Substrates : List String := []
  Products : List String := []
  SubstrateOrProducts : List String := []
  Location : String := ""
deriving DecidableEq, Repr

/-- Errors observable from `ParseRhea`: the propagated `xml.Unmarshal`
error, the `strconv.Atoi` error (carrying the offending suffix), the
two-pass map-lookup error, and the out-of-range slice branch that the
total embedding makes explicit. -/
inductive ParseError where
  | xmlErr : String → ParseError
  | atoiErr : String → ParseError
  | lookupErr : String → ParseError
  | sliceErr : ParseError
deriving DecidableEq, Repr

/-- Outcome of the external `xml.Unmarshal` collaborator. -/
inductive UnmarshalResult where
  | ok : RheaRdf → UnmarshalResult
  | err : String → UnmarshalResult

/-- Both revisions build a `Reaction` from the same record fields; the
flag distinguishes the `DirectionalReaction` and `BidirectionalReaction`
cases. -/
def newReactionOf (d : Description) (directional : Bool) : Reaction :=
  { Id := d.Id
    Directional := directional
    Accession := d.Accession
    Status := d.Status.Resource
    Comment := d.Comment
    Equation := d.Equation
    HtmlEquation := d.HtmlEquation
    IsChemicallyBalanced := d.IsChemicallyBalanced
    IsTransport := d.IsTransport
    Ec := d.EC.Resource
    Citations := d.CitationStrings
    Substrates := d.SubstrateStrings
    Products := d.ProductStrings
    SubstrateOrProducts := d.SubstrateOrProductStrings
    Location := d.Location.Resource }

/-- Multiplicity descriptor decoded from a `contains*` tag name. -/
structure ContainsDescriptor where
  Contains : Int := 0
  ContainsN : Bool := false
  Minus : Bool := false
  Plus : Bool := false
deriving DecidableEq, Repr

/-- The switch on the full `contains*` tag name shared by both revisions:
four literal cases, then the decimal fallback on the byte-offset-8
suffix. -/
def decodeContainsName (localName : String) : Except ParseError ContainsDescriptor :=
  if localName = "containsN" then
    .ok { Contains := 1, ContainsN := true, Minus := false, Plus := false }
  else if localName = "contains2n" then
    .ok { Contains := 2, ContainsN := true, Minus := false, Plus := false }
  else if localName = "containsNminus1" then
    .ok { Contains := 1, ContainsN := true, Minus := true, Plus := false }
  else if localName = "containsNplus1" then
    .ok { Contains := 1, ContainsN := true, Minus := false, Plus := true }
  else
    match goSlice localName 8 with
    | none => .error ParseError.sliceErr
    | some suffix =>
      match goAtoi suffix with
      | some i => .ok { Contains := i, ContainsN := false, Minus := false, Plus := false }
      | none => .error (ParseError.atoiErr suffix)

/-- Last subclass value containing the substring `"CHEBI"` (empty when
none does): the overwrite loop both revisions run for small molecules
and polymers. -/
def subclassChebi (d : Description) : String :=
  d.Subclass.foldl (fun s sc => if stringContains sc.Resource "CHEBI" then sc.Resource else s) ""

/-! ### One-pass resolver (the final revision of models.go) -/

namespace OnePass

structure ReactivePart where
  Id : Int := 0
  Accession : String := ""
  Position : String := ""
  Name : String := ""
  HtmlName : String := ""
  Formula : String := ""
  Charge : String := ""
  Chebi : String := ""
  SubclassOfChebi : String := ""
  PolymerizationIndex : String := ""
deriving DecidableEq, Repr

structure Compound where
  Id : Int := 0
  Accession : String := ""
  Name : String := ""
  HtmlName : String := ""
  CompoundType : String := ""
  ReactivePart : String := ""
deriving DecidableEq, Repr

structure ReactionSide where
  Accession : String := ""
  Contains : Int := 0
  ContainsN : Bool := false
  Minus : Bool := false
  Plus : Bool := false
  Compound : String := ""
deriving DecidableEq, Repr

structure Rhea where
  ReactiveParts : List ReactivePart := []
  Compounds : List Compound := []
  ReactionSides : List ReactionSide := []
  Reactions : List Reaction := []
deriving DecidableEq, Repr

def emptyRhea : Rhea := {}

/-- ReactivePart built in the `SmallMolecule`/`Polymer` case: direct
chebi reference, overridden by the underlying chebi for polymers, then
the CHEBI-subclass overwrite loop. -/
def newReactivePartSMP (d : Description) (compoundType : String) : ReactivePart :=
  let rp : ReactivePart :=
    { Id := d.Id
      Accession := d.Accession
      Position := d.Position
      Name := d.Name
      HtmlName := d.HtmlName
      Formula := d.Formula
      Charge := d.Charge
      Chebi := d.Chebi.Resource }
  let rp := if compoundType = "Polymer" then { rp with Chebi := d.UnderlyingChebi.Resource } else rp
  { rp with SubclassOfChebi := subclassChebi d }

/-- Compound built in the `SmallMolecule`/`Polymer` case. -/
def newCompoundSMP (d : Description) (compoundType : String) : Compound :=
  { Id := d.Id
    Accession := d.Accession
    Name := d.Name
    HtmlName := d.HtmlName
    CompoundType := compoundType
    ReactivePart := d.Accession }

/-- Compound built in the three generic-polymer cases. -/
def newCompoundGeneric (d : Description) (compoundType : String) : Compound :=
  { Id := d.Id
    Accession := d.Accession
    Name := d.Name
    HtmlName := d.HtmlName
    CompoundType := compoundType
    ReactivePart := d.ReactivePartXml.Resource }

/-- ReactivePart built in the standalone `ReactivePart` case; note that
this construction never touches `SubclassOfChebi`. -/
def standaloneReactivePart (d : Description) : ReactivePart :=
  { Id := d.Id
    Accession := d.Accession
    Position := d.Position
    Name := d.Name
    HtmlName := d.HtmlName
    Formula := d.Formula
    Charge := d.Charge
    Chebi := d.Chebi.Resource }

/-- One step of the subclass switch of the one-pass `ParseRhea`. -/
def applySubclass (d : Description) (acc : Rhea) (sc : Subclass) : Except ParseError Rhea :=
  if sc.Resource = uriDirectionalReaction then
    .ok { acc with Reactions := acc.Reactions ++ [newReactionOf d true] }
  else if sc.Resource = uriBidirectionalReaction then
    .ok { acc with Reactions := acc.Reactions ++ [newReactionOf d false] }
  else if sc.Resource = uriSmallMolecule ∨ sc.Resource = uriPolymer then
    match goSlice sc.Resource 23 with
    | none => .error ParseError.sliceErr
    | some compoundType =>
      .ok { acc with
            ReactiveParts := acc.ReactiveParts ++ [newReactivePartSMP d compoundType]
            Compounds := acc.Compounds ++ [newCompoundSMP d compoundType] }
  else if sc.Resource = uriGenericPolypeptide ∨ sc.Resource = uriGenericPolynucleotide ∨
      sc.Resource = uriGenericHeteropolysaccharide then
    match goSlice sc.Resource 23 with
    | none => .error ParseError.sliceErr
    | some compoundType =>
      .ok { acc with Compounds := acc.Compounds ++ [newCompoundGeneric d compoundType] }
  else if sc.Resource = uriReactivePart then
    .ok { acc with ReactiveParts := acc.ReactiveParts ++ [standaloneReactivePart d] }
  else
    .ok acc

/-- One step of the contains-property loop of the one-pass `ParseRhea`:
the `strings.Contains` gate, the name switch, and the append of the
decoded `ReactionSide`. -/
def applyContainsX (d : Description) (acc : Rhea) (cx : ContainsX) : Except ParseError Rhea :=
  if stringContains cx.XMLName.Local "contains" then
    match decodeContainsName cx.XMLName.Local with
    | .error e => .error e
    | .ok q =>
      .ok { acc with ReactionSides := acc.ReactionSides ++
            [{ Accession := d.About
               Contains := q.Contains
               ContainsN := q.ContainsN
               Minus := q.Minus
               Plus := q.Plus
               Compound := cx.Content }] }
  else
    .ok acc

/-- Per-record body of the one-pass resolver loop: the subclass switch
over `d.Subclass`, then the contains-property loop over `d.ContainsX`. -/
def processDescription (acc : Rhea) (d : Description) : Except ParseError Rhea :=
  match exFold (applySubclass d) acc d.Subclass with
  | .error e => .error e
  | .ok acc1 => exFold (applyContainsX d) acc1 d.ContainsX

/-- One-pass `ParseRhea`: unmarshal the bytes, then fold the per-record
body over all descriptions; any error returns the empty aggregate
together with that error, exactly as the Go function returns
`Rhea{}, err`. -/
def ParseRhea (unmarshal : List UInt8 → UnmarshalResult) (rheaBytes : List UInt8) :
    Rhea × Option ParseError :=
  match unmarshal rheaBytes with
  | .err e => (emptyRhea, some (ParseError.xmlErr e))
  | .ok rdf =>
    match exFold processDescription emptyRhea rdf.Descriptions with
    | .ok rhea => (rhea, none)
    | .error e => (emptyRhea, some e)

/-! #### Derived per-record classifiers (used to characterize the output
collections; each is proved against the step functions above) -/

/-- Reaction produced by one subclass assertion, if any. -/
def reactionOf (d : Description) (sc : Subclass) : Option Reaction :=
  if sc.Resource = uriDirectionalReaction then some (newReactionOf d true)
  else if sc.Resource = uriBidirectionalReaction then some (newReactionOf d false)
  else none

/-- ReactivePart produced by one subclass assertion, if any. -/
def rpOf (d : Description) (sc : Subclass) : Option ReactivePart :=
  if sc.Resource = uriDirectionalReaction then none
  else if sc.Resource = uriBidirectionalReaction then none
  else if sc.Resource = uriSmallMolecule then some (newReactivePartSMP d "SmallMolecule")
  else if sc.Resource = uriPolymer then some (newReactivePartSMP d "Polymer")
  else if sc.Resource = uriReactivePart then some (standaloneReactivePart d)
  else none

/-- Compound produced by one subclass assertion, if any. -/
def compoundOf (d : Description) (sc : Subclass) : Option Compound :=
  if sc.Resource = uriDirectionalReaction then none
  else if sc.Resource = uriBidirectionalReaction then none
  else if sc.Resource = uriSmallMolecule then some (newCompoundSMP d "SmallMolecule")
  else if sc.Resource = uriPolymer then some (newCompoundSMP d "Polymer")
  else if sc.Resource = uriGenericPolypeptide then some (newCompoundGeneric d "GenericPolypeptide")
  else if sc.Resource = uriGenericPolynucleotide then some (newCompoundGeneric d "GenericPolynucleotide")
  else if sc.Resource = uriGenericHeteropolysaccharide then some (newCompoundGeneric d "GenericHeteropolysaccharide")
  else none

/-- ReactionSide produced by one open-bag entry, if any (on inputs where
the resolver succeeds, the skipped-error branch never fires). -/
def sideOf (d : Description) (cx : ContainsX) : Option ReactionSide :=
  if stringContains cx.XMLName.Local "contains" then
    match decodeContainsName cx.XMLName.Local with
    | .error _ => none
    | .ok q =>
      some { Accession := d.About
             Contains := q.Contains
             ContainsN := q.ContainsN
             Minus := q.Minus
             Plus := q.Plus
             Compound := cx.Content }
  else
    none

/-- Semantic-decode failure of one open-bag entry: gated in, none of the
four literal names, and the offset-8 suffix not a decimal integer. -/
def badEntry (cx : ContainsX) : Prop :=
  stringContains cx.XMLName.Local "contains" = true ∧
  cx.XMLName.Local ≠ "containsN" ∧ cx.XMLName.Local ≠ "contains2n" ∧
  cx.XMLName.Local ≠ "containsNminus1" ∧ cx.XMLName.Local ≠ "containsNplus1" ∧
  goAtoi (dropStr cx.XMLName.Local 8) = none

instance (cx : ContainsX) : Decidable (badEntry cx) := by
  unfold badEntry; infer_instance

/-- Reactions contributed by one record. -/
def descReactions (d : Description) : List Reaction :=
  flatMapL (fun sc => (reactionOf d sc).toList) d.Subclass

/-- ReactiveParts contributed by one record. -/
def descReactiveParts (d : Description) : List ReactivePart :=
  flatMapL (fun sc => (rpOf d sc).toList) d.Subclass

/-- Compounds contributed by one record. -/
def descCompounds (d : Description) : List Compound :=
  flatMapL (fun sc => (compoundOf d sc).toList) d.Subclass

/-- ReactionSides contributed by one record (on non-failing inputs). -/
def descSides (d : Description) : List ReactionSide :=
  flatMapL (fun cx => (sideOf d cx).toList) d.ContainsX

end OnePass

/-! ### Two-pass resolver (the earlier revision of models.go) -/

namespace TwoPass

structure ReactivePart where
  Id : Int := 0
  Accession : String := ""
  Position : String := ""
  Name : String := ""
  HtmlName : String := ""
  Formula : String := ""
  Charge : String := ""
  Chebi : String := ""
  SubclassOfChebi : String := ""
  PolymerizationIndex : String := ""
  CompoundReactionParticipantLink : String := ""
  CompoundId : Int := 0
  CompoundAccession : String := ""
  CompoundName : String := ""
  CompoundHtmlName : String := ""
  CompoundType : String := ""
deriving DecidableEq, Repr

structure ReactionParticipant where
  ReactionSide : String := ""
  Contains : Int := 0
  ContainsN : Bool := false
  Minus : Bool := false
  Plus : Bool := false
  Compound : String := ""
deriving DecidableEq, Repr

structure Rhea where
  ReactionParticipants : List ReactionParticipant := []
  ReactiveParts : List ReactivePart := []
  Reactions : List Reaction := []
deriving DecidableEq, Repr

def emptyRhea : Rhea := {}

/-- Go `map[string]α` restricted to the operations the resolver uses:
insert-overwrite and lookup.  Insertion prepends; lookup takes the most
recent binding. -/
abbrev GoMap (α : Type) := List (String × α)

def mapInsert (m : GoMap α) (k : String) (v : α) : GoMap α := (k, v) :: m

def mapLookup (m : GoMap α) (k : String) : Option α :=
  match m with
  | [] => none
  | (k', v) :: rest => if k = k' then some v else mapLookup rest k

/-- Go map read in value position: missing keys give the zero value. -/
def mapLookupD (m : GoMap String) (k : String) : String :=
  (mapLookup m k).getD ""

/-- State threaded through the first pass: the partial aggregate plus the
two auxiliary lookup tables. -/
structure Pass1State where
  rhea : Rhea := {}
  compoundMap : GoMap String := []
  reactivePartMap : GoMap ReactivePart := []

/-- ReactivePart built in the `SmallMolecule`/`Polymer` case of the
two-pass revision (carries the denormalized Compound fields). -/
def newReactivePartSMP (d : Description) (compoundType : String) : ReactivePart :=
  let rp : ReactivePart :=
    { Id := d.Id
      Accession := d.Accession
      Position := d.Position
      Name := d.Name
      HtmlName := d.HtmlName
      Formula := d.Formula
      Charge := d.Charge
      Chebi := d.Chebi.Resource
      CompoundReactionParticipantLink := d.About
      CompoundId := d.Id
      CompoundAccession := d.Accession
      CompoundName := d.Name
      CompoundHtmlName := d.HtmlName
      CompoundType := compoundType }
  let rp := if compoundType = "Polymer" then { rp with Chebi := d.UnderlyingChebi.Resource } else rp
  { rp with SubclassOfChebi := subclassChebi d }

/-- Partial ReactivePart parked in `reactivePartMap` by the three
generic-polymer cases; all other fields stay at their zero values. -/
def newReactivePartGeneric (d : Description) (compoundType : String) : ReactivePart :=
  { CompoundId := d.Id
    CompoundAccession := d.Accession
    CompoundName := d.Name
    CompoundHtmlName := d.HtmlName
    CompoundType := compoundType }

/-- One step of the first-pass subclass switch. -/
def pass1Subclass (d : Description) (st : Pass1State) (sc : Subclass) :
    Except ParseError Pass1State :=
  if sc.Resource = uriDirectionalReaction then
    .ok { st with rhea := { st.rhea with Reactions := st.rhea.Reactions ++ [newReactionOf d true] } }
  else if sc.Resource = uriBidirectionalReaction then
    .ok { st with rhea := { st.rhea with Reactions := st.rhea.Reactions ++ [newReactionOf d false] } }
  else if sc.Resource = uriSmallMolecule ∨ sc.Resource = uriPolymer then
    match goSlice sc.Resource 23 with
    | none => .error ParseError.sliceErr
    | some compoundType =>
      .ok { st with rhea :=
            { st.rhea with ReactiveParts := st.rhea.ReactiveParts ++ [newReactivePartSMP d compoundType] } }
  else if sc.Resource = uriGenericPolypeptide ∨ sc.Resource = uriGenericPolynucleotide ∨
      sc.Resource = uriGenericHeteropolysaccharide then
    match goSlice sc.Resource 23 with
    | none => .error ParseError.sliceErr
    | some compoundType =>
      .ok { st with
            reactivePartMap := mapInsert st.reactivePartMap d.About (newReactivePartGeneric d compoundType)
            compoundMap := mapInsert st.compoundMap d.ReactivePartXml.Resource d.About }
  else
    .ok st

/-- First-pass per-record body: the two conditional `compoundMap`
insertions, then the subclass switch. -/
def pass1Description (st : Pass1State) (d : Description) : Except ParseError Pass1State :=
  let st :=
    if d.Subclass = [] ∧ d.ReactivePartXml.Resource ≠ "" then
      { st with compoundMap := mapInsert st.compoundMap d.ReactivePartXml.Resource d.About }
    else st
  let st :=
    if d.Compound.Resource ≠ "" then
      { st with compoundMap := mapInsert st.compoundMap d.About d.Compound.Resource }
    else st
  exFold (pass1Subclass d) st d.Subclass

/-- One step of the second-pass contains-property loop; the compound
reference is resolved through `compoundMap` (zero value on a miss). -/
def pass2ContainsX (cm : GoMap String) (d : Description) (rhea : Rhea) (cx : ContainsX) :
    Except ParseError Rhea :=
  if stringContains cx.XMLName.Local "contains" then
    match decodeContainsName cx.XMLName.Local with
    | .error e => .error e
    | .ok q =>
      .ok { rhea with ReactionParticipants := rhea.ReactionParticipants ++
            [{ ReactionSide := d.About
               Contains := q.Contains
               ContainsN := q.ContainsN
               Minus := q.Minus
               Plus := q.Plus
               Compound := mapLookupD cm cx.Content }] }
  else
    .ok rhea

/-- One step of the second-pass subclass loop: the standalone
`ReactivePart` case stitches the record onto the parked generic
compound, failing when the chain of lookups misses. -/
def pass2Subclass (cm : GoMap String) (rpm : GoMap ReactivePart) (d : Description)
    (rhea : Rhea) (sc : Subclass) : Except ParseError Rhea :=
  if sc.Resource = uriReactivePart then
    match mapLookup rpm (mapLookupD cm d.About) with
    | none => .error (ParseError.lookupErr ("Could not find " ++ d.About))
    | some rp =>
      .ok { rhea with ReactiveParts := rhea.ReactiveParts ++
            [{ rp with
               CompoundReactionParticipantLink := d.About
               Id := d.Id
               Accession := d.Accession
               Position := d.Position
               Name := d.Name
               HtmlName := d.HtmlName
               Formula := d.Formula
               Charge := d.Charge
               Chebi := d.Chebi.Resource }] }
  else
    .ok rhea

/-- Second-pass per-record body: contains loop, then subclass loop. -/
def pass2Description (cm : GoMap String) (rpm : GoMap ReactivePart) (rhea : Rhea)
    (d : Description) : Except ParseError Rhea :=
  match exFold (pass2ContainsX cm d) rhea d.ContainsX with
  | .error e => .error e
  | .ok r1 => exFold (pass2Subclass cm rpm d) r1 d.Subclass

/-- Two-pass `ParseRhea`: pass 1 builds the Reactions, the eager
ReactiveParts and the two maps; pass 2 re-traverses all records to build
ReactionParticipants and the stitched ReactiveParts. -/
def ParseRhea (unmarshal : List UInt8 → UnmarshalResult) (rheaBytes : List UInt8) :
    Rhea × Option ParseError :=
  match unmarshal rheaBytes with
  | .err e => (emptyRhea, some (ParseError.xmlErr e))
  | .ok rdf =>
    match exFold pass1Description {} rdf.Descriptions with
    | .error e => (emptyRhea, some e)
    | .ok st =>
      match exFold (pass2Description st.compoundMap st.reactivePartMap) st.rhea rdf.Descriptions with
      | .ok rhea => (rhea, none)
      | .error e => (emptyRhea, some e)

end TwoPass

/-! ### Concrete fixtures (records used to exercise the resolver) -/

/-- Unmarshal collaborator that decodes every byte stream to `rdf`. -/
def uOf (rdf : RheaRdf) : List UInt8 → UnmarshalResult := fun _ => UnmarshalResult.ok rdf

/-- Unmarshal collaborator that always fails. -/
def uErr : List UInt8 → UnmarshalResult := fun _ => UnmarshalResult.err "unexpected EOF"

/-- Record carrying a duplicated `DirectionalReaction` assertion. -/
def dDirDup : Description :=
  { About := "http://rdf.rhea-db.org/10000"
    Id := 10000
    Accession := "RHEA:10000"
    Equation := "a + b = c"
    Subclass := [{ Resource := uriDirectionalReaction }, { Resource := uriDirectionalReaction }] }

def rdfDup : RheaRdf := { Descriptions := [dDirDup] }

/-- Record whose open-bag entry contains the substring `contains` without
beginning with it. -/
def dXContains : Description :=
  { About := "http://rdf.rhea-db.org/10003_L"
    ContainsX := [{ XMLName := { Local := "xcontains1" }, Content := "http://rdf.rhea-db.org/Participant_1" }] }

def rdfBadName : RheaRdf := { Descriptions := [dXContains] }

/-- Standalone reactive-part record that also carries a CHEBI subclass
assertion. -/
def dRPChebi : Description :=
  { About := "http://rdf.rhea-db.org/Compound_2844_rp1"
    Id := 2844
    Accession := "GENERIC:2844"
    Chebi := { Resource := "CHEBI:29999" }
    Subclass := [{ Resource := uriReactivePart },
      { Resource := "http://purl.obolibrary.org/obo/CHEBI_16991" }] }

def rdfRPChebi : RheaRdf := { Descriptions := [dRPChebi] }

/-- Small-molecule record with distinct direct and underlying chemical
references. -/
def dSM : Description :=
  { About := "http://rdf.rhea-db.org/Compound_10594"
    Id := 10594
    Accession := "CHEBI:15377"
    Name := "water"
    Chebi := { Resource := "CHEBI:15377" }
    UnderlyingChebi := { Resource := "CHEBI:99999" }
    Subclass := [{ Resource := uriSmallMolecule }] }

/-- Polymer record with distinct direct and underlying chemical
references. -/
def dPoly : Description :=
  { About := "http://rdf.rhea-db.org/Compound_11000"
    Id := 11000
    Accession := "POLYMER:11000"
    Chebi := { Resource := "CHEBI:10000" }
    UnderlyingChebi := { Resource := "CHEBI:20000" }
    Subclass := [{ Resource := uriPolymer }] }

def rdfSM : RheaRdf := { Descriptions := [dSM, dPoly] }

/-- Reaction-side record with three decodable contains entries. -/
def dSides : Description :=
  { About := "http://rdf.rhea-db.org/10003_L"
    ContainsX := [{ XMLName := { Local := "containsN" }, Content := "http://rdf.rhea-db.org/Participant_A" },
      { XMLName := { Local := "contains5" }, Content := "http://rdf.rhea-db.org/Participant_B" },
      { XMLName := { Local := "containsNminus1" }, Content := "http://rdf.rhea-db.org/Participant_C" }] }

def rdfSides : RheaRdf := { Descriptions := [dSides] }

def rdfDirSides : RheaRdf := { Descriptions := [dDirDup, dSides] }

/-! ### Generic lemmas about the helpers -/

theorem listPrefixCheck_length : ∀ (pat l : List Char), listPrefixCheck pat l = true →
    pat.length ≤ l.length := by
  intro pat
  induction pat with
  | nil => intro l _; simp
  | cons a as ih =>
    intro l h
    cases l with
    | nil => simp [listPrefixCheck] at h
    | cons b bs =>
      simp only [listPrefixCheck, Bool.and_eq_true] at h
      simpa using ih bs h.2

theorem goContainsList_length : ∀ (pat l : List Char), goContainsList pat l = true →
    pat.length ≤ l.length := by
  intro pat l
  induction l with
  | nil => intro h; exact listPrefixCheck_length _ _ h
  | cons c rest ih =>
    intro h
    simp only [goContainsList, Bool.or_eq_true] at h
    rcases h with h | h
    · exact listPrefixCheck_length _ _ h
    · exact Nat.le_succ_of_le (ih h)

theorem stringContains_goSlice8 (s : String) (h : stringContains s "contains" = true) :
    goSlice s 8 = some (dropStr s 8) := by
  have h8 : (8 : Nat) ≤ s.data.length := by
    have := goContainsList_length ("contains").data s.data h
    simpa using this
  have h8' : (8 : Nat) ≤ s.length := h8
  simp [goSlice, h8, h8']

theorem mem_flatMapL (f : α → List γ) (l : List α) (x : γ) :
    x ∈ flatMapL f l ↔ ∃ a ∈ l, x ∈ f a := by
  induction l with
  | nil => simp [flatMapL]
  | cons a as ih => simp [flatMapL, ih]

theorem exFold_flat_char (f : β → α → Except ε β) (g : β → List γ) (hfun : α → List γ)
    (hstep : ∀ acc x r, f acc x = .ok r → g r = g acc ++ hfun x) :
    ∀ (l : List α) (acc r), exFold f acc l = .ok r → g r = g acc ++ flatMapL hfun l := by
  intro l
  induction l with
  | nil =>
    intro acc r h
    simp only [exFold] at h
    cases h
    simp [flatMapL]
  | cons a as ih =>
    intro acc r h
    simp only [exFold] at h
    cases hfa : f acc a with
    | error e => rw [hfa] at h; cases h
    | ok b =>
      rw [hfa] at h
      rw [ih b r h, hstep acc a b hfa, flatMapL, List.append_assoc]

theorem exFold_preserve (f : β → α → Except ε β) (g : β → γ)
    (hstep : ∀ acc x r, f acc x = .ok r → g r = g acc) :
    ∀ (l : List α) (acc r), exFold f acc l = .ok r → g r = g acc := by
  intro l
  induction l with
  | nil => intro acc r h; simp only [exFold] at h; cases h; rfl
  | cons a as ih =>
    intro acc r h
    simp only [exFold] at h
    cases hfa : f acc a with
    | error e => rw [hfa] at h; cases h
    | ok b => rw [hfa] at h; rw [ih b r h, hstep acc a b hfa]

theorem exFold_ok_total (f : β → α → Except ε β)
    (hstep : ∀ acc x, ∃ r, f acc x = .ok r) :
    ∀ (l : List α) (acc : β), ∃ r, exFold f acc l = .ok r := by
  intro l
  induction l with
  | nil => intro acc; exact ⟨acc, rfl⟩
  | cons a as ih =>
    intro acc
    obtain ⟨b, hb⟩ := hstep acc a
    obtain ⟨r, hr⟩ := ih b
    exact ⟨r, by simp only [exFold]; rw [hb]; exact hr⟩

theorem exFold_err_iff (f : β → α → Except ε β) (P : α → Prop)
    (hstep : ∀ acc x, (∃ e, f acc x = .error e) ↔ P x) :
    ∀ (l : List α) (acc : β), (∃ e, exFold f acc l = .error e) ↔ ∃ x ∈ l, P x := by
  intro l
  induction l with
  | nil => intro acc; simp [exFold]
  | cons a as ih =>
    intro acc
    simp only [exFold]
    cases hfa : f acc a with
    | error e =>
      have hp : P a := (hstep acc a).1 ⟨e, hfa⟩
      simp only [List.mem_cons]
      constructor
      · intro _; exact ⟨a, Or.inl rfl, hp⟩
      · intro _; exact ⟨e, rfl⟩
    | ok b =>
      have hnp : ¬ P a := by
        intro hp
        obtain ⟨e, he⟩ := (hstep acc a).2 hp
        rw [hfa] at he
        cases he
      rw [ih b]
      constructor
      · intro ⟨x, hx, hp⟩; exact ⟨x, List.mem_cons_of_mem a hx, hp⟩
      · intro ⟨x, hx, hp⟩
        rcases List.mem_cons.1 hx with rfl | hx
        · exact absurd hp hnp
        · exact ⟨x, hx, hp⟩

theorem exFold_err_val (f : β → α → Except ε β) (Q : ε → Prop)
    (hstep : ∀ acc x e, f acc x = .error e → Q e) :
    ∀ (l : List α) (acc : β) (e : ε), exFold f acc l = .error e → Q e := by
  intro l
  induction l with
  | nil => intro acc e h; simp only [exFold] at h; cases h
  | cons a as ih =>
    intro acc e h
    simp only [exFold] at h
    cases hfa : f acc a with
    | error e' => rw [hfa] at h; cases h; exact hstep acc a e hfa
    | ok b => rw [hfa] at h; exact ih b e h

/-! ### One-pass resolver lemmas -/

namespace OnePass

theorem dropStr_sm : dropStr "http://rdf.rhea-db.org/SmallMolecule" 23 = "SmallMolecule" := by decide

theorem dropStr_poly : dropStr "http://rdf.rhea-db.org/Polymer" 23 = "Polymer" := by decide

theorem dropStr_gp : dropStr "http://rdf.rhea-db.org/GenericPolypeptide" 23 = "GenericPolypeptide" := by decide

theorem dropStr_gn : dropStr "http://rdf.rhea-db.org/GenericPolynucleotide" 23 = "GenericPolynucleotide" := by decide

theorem dropStr_gh : dropStr "http://rdf.rhea-db.org/GenericHeteropolysaccharide" 23 = "GenericHeteropolysaccharide" := by decide

/-- The subclass switch never fails, and appends exactly the entities
given by the per-assertion classifiers. -/
theorem applySubclass_char (d : Description) (acc : Rhea) (sc : Subclass) :
    ∃ r, applySubclass d acc sc = .ok r ∧
      r.Reactions = acc.Reactions ++ (reactionOf d sc).toList ∧
      r.ReactiveParts = acc.ReactiveParts ++ (rpOf d sc).toList ∧
      r.Compounds = acc.Compounds ++ (compoundOf d sc).toList ∧
      r.ReactionSides = acc.ReactionSides := by
  obtain ⟨res⟩ := sc
  by_cases h1 : res = uriDirectionalReaction
  · subst h1
    refine ⟨_, rfl, ?_, ?_, ?_, ?_⟩ <;>
      simp [reactionOf, rpOf, compoundOf, uriDirectionalReaction, uriBidirectionalReaction,
        uriSmallMolecule, uriPolymer, uriGenericPolypeptide, uriGenericPolynucleotide,
        uriGenericHeteropolysaccharide, uriReactivePart, dropStr_sm, dropStr_poly, dropStr_gp,
        dropStr_gn, dropStr_gh]
  by_cases h2 : res = uriBidirectionalReaction
  · subst h2
    refine ⟨_, rfl, ?_, ?_, ?_, ?_⟩ <;>
      simp [reactionOf, rpOf, compoundOf, uriDirectionalReaction, uriBidirectionalReaction,
        uriSmallMolecule, uriPolymer, uriGenericPolypeptide, uriGenericPolynucleotide,
        uriGenericHeteropolysaccharide, uriReactivePart, dropStr_sm, dropStr_poly, dropStr_gp,
        dropStr_gn, dropStr_gh]
  by_cases h3 : res = uriSmallMolecule
  · subst h3
    refine ⟨_, rfl, ?_, ?_, ?_, ?_⟩ <;>
      simp [reactionOf, rpOf, compoundOf, uriDirectionalReaction, uriBidirectionalReaction,
        uriSmallMolecule, uriPolymer, uriGenericPolypeptide, uriGenericPolynucleotide,
        uriGenericHeteropolysaccharide, uriReactivePart, dropStr_sm, dropStr_poly, dropStr_gp,
        dropStr_gn, dropStr_gh]
  by_cases h4 : res = uriPolymer
  · subst h4
    refine ⟨_, rfl, ?_, ?_, ?_, ?_⟩ <;>
      simp [reactionOf, rpOf, compoundOf, uriDirectionalReaction, uriBidirectionalReaction,
        uriSmallMolecule, uriPolymer, uriGenericPolypeptide, uriGenericPolynucleotide,
        uriGenericHeteropolysaccharide, uriReactivePart, dropStr_sm, dropStr_poly, dropStr_gp,
        dropStr_gn, dropStr_gh]
  by_cases h5 : res = uriGenericPolypeptide
  · subst h5
    refine ⟨_, rfl, ?_, ?_, ?_, ?_⟩ <;>
      simp [reactionOf, rpOf, compoundOf, uriDirectionalReaction, uriBidirectionalReaction,
        uriSmallMolecule, uriPolymer, uriGenericPolypeptide, uriGenericPolynucleotide,
        uriGenericHeteropolysaccharide, uriReactivePart, dropStr_sm, dropStr_poly, dropStr_gp,
        dropStr_gn, dropStr_gh]
  by_cases h6 : res = uriGenericPolynucleotide
  · subst h6
    refine ⟨_, rfl, ?_, ?_, ?_, ?_⟩ <;>
      simp [reactionOf, rpOf, compoundOf, uriDirectionalReaction, uriBidirectionalReaction,
        uriSmallMolecule, uriPolymer, uriGenericPolypeptide, uriGenericPolynucleotide,
        uriGenericHeteropolysaccharide, uriReactivePart, dropStr_sm, dropStr_poly, dropStr_gp,
        dropStr_gn, dropStr_gh]
  by_cases h7 : res = uriGenericHeteropolysaccharide
  · subst h7
    refine ⟨_, rfl, ?_, ?_, ?_, ?_⟩ <;>
      simp [reactionOf, rpOf, compoundOf, uriDirectionalReaction, uriBidirectionalReaction,
        uriSmallMolecule, uriPolymer, uriGenericPolypeptide, uriGenericPolynucleotide,
        uriGenericHeteropolysaccharide, uriReactivePart, dropStr_sm, dropStr_poly, dropStr_gp,
        dropStr_gn, dropStr_gh]
  by_cases h8 : res = uriReactivePart
  · subst h8
    refine ⟨_, rfl, ?_, ?_, ?_, ?_⟩ <;>
      simp [reactionOf, rpOf, compoundOf, uriDirectionalReaction, uriBidirectionalReaction,
        uriSmallMolecule, uriPolymer, uriGenericPolypeptide, uriGenericPolynucleotide,
        uriGenericHeteropolysaccharide, uriReactivePart, dropStr_sm, dropStr_poly, dropStr_gp,
        dropStr_gn, dropStr_gh]
  · exact ⟨acc,
      by simp [applySubclass, h1, h2, h3, h4, h5, h6, h7, h8],
      by simp [reactionOf, h1, h2],
      by simp [rpOf, h1, h2, h3, h4, h8],
      by simp [compoundOf, h1, h2, h3, h4, h5, h6, h7], rfl⟩

end OnePass

namespace OnePass

/-- Every descriptor the name switch can return keeps the minus/plus
flags exclusive and subordinate to the indefinite flag. -/
theorem decodeContainsName_flags (name : String) (q : ContainsDescriptor)
    (h : decodeContainsName name = .ok q) :
    ¬(q.Minus = true ∧ q.Plus = true) ∧
    ((q.Minus = true ∨ q.Plus = true) → q.ContainsN = true) := by
  unfold decodeContainsName at h
  split_ifs at h
  · cases h; simp
  · cases h; simp
  · cases h; simp
  · cases h; simp
  · cases hs : goSlice name 8 with
    | none => simp only [hs] at h; cases h
    | some suffix =>
      simp only [hs] at h
      cases ha : goAtoi suffix with
      | none => simp only [ha] at h; cases h
      | some i => simp only [ha] at h; cases h; simp

/-- Successful contains-step: everything but `ReactionSides` is
untouched, and `ReactionSides` grows by the decoded entry (if the gate
admitted one). -/
theorem applyContainsX_ok_char (d : Description) (acc : Rhea) (cx : ContainsX) (r : Rhea)
    (h : applyContainsX d acc cx = .ok r) :
    r.ReactionSides = acc.ReactionSides ++ (sideOf d cx).toList ∧
    r.Reactions = acc.Reactions ∧ r.ReactiveParts = acc.ReactiveParts ∧
    r.Compounds = acc.Compounds := by
  unfold applyContainsX at h
  by_cases hc : stringContains cx.XMLName.Local "contains" = true
  · rw [if_pos hc] at h
    cases hq : decodeContainsName cx.XMLName.Local with
    | error e => simp only [hq] at h; cases h
    | ok q =>
      simp only [hq] at h
      cases h
      exact ⟨by simp [sideOf, hc, hq], rfl, rfl, rfl⟩
  · rw [if_neg hc] at h
    cases h
    exact ⟨by simp [sideOf, hc], rfl, rfl, rfl⟩

/-- The contains-step fails exactly on semantically bad entries. -/
theorem applyContainsX_err_iff (d : Description) (acc : Rhea) (cx : ContainsX) :
    (∃ e, applyContainsX d acc cx = .error e) ↔ badEntry cx := by
  unfold applyContainsX badEntry
  by_cases hc : stringContains cx.XMLName.Local "contains" = true
  · rw [if_pos hc]
    by_cases e1 : cx.XMLName.Local = "containsN"
    · simp [decodeContainsName, e1]
    by_cases e2 : cx.XMLName.Local = "contains2n"
    · simp [decodeContainsName, e2]
    by_cases e3 : cx.XMLName.Local = "containsNminus1"
    · simp [decodeContainsName, e3]
    by_cases e4 : cx.XMLName.Local = "containsNplus1"
    · simp [decodeContainsName, e4]
    · rw [decodeContainsName.eq_def]
      rw [if_neg e1, if_neg e2, if_neg e3, if_neg e4, stringContains_goSlice8 _ hc]
      cases ha : goAtoi (dropStr cx.XMLName.Local 8) with
      | none => simp [hc, e1, e2, e3, e4, ha]
      | some i => simp [ha]
  · rw [if_neg hc]
    simp [hc]

/-- The only error the contains-step can raise is the Atoi error. -/
theorem applyContainsX_err_val (d : Description) (acc : Rhea) (cx : ContainsX) (e : ParseError)
    (h : applyContainsX d acc cx = .error e) : ∃ s, e = ParseError.atoiErr s := by
  unfold applyContainsX at h
  by_cases hc : stringContains cx.XMLName.Local "contains" = true
  · rw [if_pos hc] at h
    cases hq : decodeContainsName cx.XMLName.Local with
    | ok q => simp only [hq] at h; cases h
    | error e' =>
      simp only [hq] at h
      cases h
      rw [decodeContainsName.eq_def] at hq
      split_ifs at hq
      rw [stringContains_goSlice8 _ hc] at hq
      cases ha : goAtoi (dropStr cx.XMLName.Local 8) with
      | some i => simp only [ha] at hq; cases hq
      | none =>
        simp only [ha] at hq
        cases hq
        exact ⟨_, rfl⟩
  · rw [if_neg hc] at h
    cases h

end OnePass

namespace OnePass

/-- The subclass fold is total. -/
theorem exFold_applySubclass_total (d : Description) (l : List Subclass) (acc : Rhea) :
    ∃ r, exFold (applySubclass d) acc l = .ok r :=
  exFold_ok_total (applySubclass d)
    (fun a x => (applySubclass_char d a x).elim (fun r h => ⟨r, h.1⟩)) l acc

/-- A successful per-record step appends exactly the per-record
collections of the four classifiers. -/
theorem processDescription_ok_char (acc : Rhea) (d : Description) (r : Rhea)
    (h : processDescription acc d = .ok r) :
    r.Reactions = acc.Reactions ++ descReactions d ∧
    r.ReactiveParts = acc.ReactiveParts ++ descReactiveParts d ∧
    r.Compounds = acc.Compounds ++ descCompounds d ∧
    r.ReactionSides = acc.ReactionSides ++ descSides d := by
  unfold processDescription at h
  cases hs : exFold (applySubclass d) acc d.Subclass with
  | error e => simp only [hs] at h; cases h
  | ok acc1 =>
    simp only [hs] at h
    have stepRe : ∀ a x r', applySubclass d a x = .ok r' →
        r'.Reactions = a.Reactions ++ (reactionOf d x).toList := by
      intro a x r' hf
      obtain ⟨r'', heq, c1, _, _, _⟩ := applySubclass_char d a x
      rw [hf] at heq; cases heq; exact c1
    have stepRp : ∀ a x r', applySubclass d a x = .ok r' →
        r'.ReactiveParts = a.ReactiveParts ++ (rpOf d x).toList := by
      intro a x r' hf
      obtain ⟨r'', heq, _, c2, _, _⟩ := applySubclass_char d a x
      rw [hf] at heq; cases heq; exact c2
    have stepCo : ∀ a x r', applySubclass d a x = .ok r' →
        r'.Compounds = a.Compounds ++ (compoundOf d x).toList := by
      intro a x r' hf
      obtain ⟨r'', heq, _, _, c3, _⟩ := applySubclass_char d a x
      rw [hf] at heq; cases heq; exact c3
    have stepSi : ∀ a x r', applySubclass d a x = .ok r' →
        r'.ReactionSides = a.ReactionSides := by
      intro a x r' hf
      obtain ⟨r'', heq, _, _, _, c4⟩ := applySubclass_char d a x
      rw [hf] at heq; cases heq; exact c4
    have hre := exFold_flat_char (applySubclass d) (fun s => s.Reactions) _ stepRe d.Subclass acc acc1 hs
    have hrp := exFold_flat_char (applySubclass d) (fun s => s.ReactiveParts) _ stepRp d.Subclass acc acc1 hs
    have hco := exFold_flat_char (applySubclass d) (fun s => s.Compounds) _ stepCo d.Subclass acc acc1 hs
    have hsi := exFold_preserve (applySubclass d) (fun s => s.ReactionSides) stepSi d.Subclass acc acc1 hs
    have cre := exFold_preserve (applyContainsX d) (fun s => s.Reactions)
      (fun a x r' hf => (applyContainsX_ok_char d a x r' hf).2.1) d.ContainsX acc1 r h
    have crp := exFold_preserve (applyContainsX d) (fun s => s.ReactiveParts)
      (fun a x r' hf => (applyContainsX_ok_char d a x r' hf).2.2.1) d.ContainsX acc1 r h
    have cco := exFold_preserve (applyContainsX d) (fun s => s.Compounds)
      (fun a x r' hf => (applyContainsX_ok_char d a x r' hf).2.2.2) d.ContainsX acc1 r h
    have csi := exFold_flat_char (applyContainsX d) (fun s => s.ReactionSides) _
      (fun a x r' hf => (applyContainsX_ok_char d a x r' hf).1) d.ContainsX acc1 r h
    refine ⟨?_, ?_, ?_, ?_⟩
    · exact cre.trans hre
    · exact crp.trans hrp
    · exact cco.trans hco
    · exact csi.trans (by rw [hsi]; rfl)

/-- A per-record step fails exactly when the record holds a semantically
bad contains entry (independently of the accumulator). -/
theorem processDescription_err_iff (acc : Rhea) (d : Description) :
    (∃ e, processDescription acc d = .error e) ↔ ∃ cx ∈ d.ContainsX, badEntry cx := by
  unfold processDescription
  obtain ⟨acc1, hs⟩ := exFold_applySubclass_total d d.Subclass acc
  simp only [hs]
  exact exFold_err_iff (applyContainsX d) badEntry (fun a cx => applyContainsX_err_iff d a cx)
    d.ContainsX acc1

/-- The only error a per-record step can raise is the Atoi error. -/
theorem processDescription_err_val (acc : Rhea) (d : Description) (e : ParseError)
    (h : processDescription acc d = .error e) : ∃ s, e = ParseError.atoiErr s := by
  unfold processDescription at h
  obtain ⟨acc1, hs⟩ := exFold_applySubclass_total d d.Subclass acc
  simp only [hs] at h
  exact exFold_err_val (applyContainsX d) (fun e' => ∃ s, e' = ParseError.atoiErr s)
    (fun a cx e' he' => applyContainsX_err_val d a cx e' he') d.ContainsX acc1 e h

/-- On success, each of the four output collections of the one-pass
resolver is the concatenation, in encounter order, of the per-record
collections. -/
theorem ParseRhea_ok_char (u : List UInt8 → UnmarshalResult) (b : List UInt8) (rdf : RheaRdf)
    (rhea : Rhea) (hu : u b = .ok rdf) (h : ParseRhea u b = (rhea, none)) :
    rhea.Reactions = flatMapL descReactions rdf.Descriptions ∧
    rhea.ReactiveParts = flatMapL descReactiveParts rdf.Descriptions ∧
    rhea.Compounds = flatMapL descCompounds rdf.Descriptions ∧
    rhea.ReactionSides = flatMapL descSides rdf.Descriptions := by
  unfold ParseRhea at h
  rw [hu] at h
  cases hf : exFold processDescription emptyRhea rdf.Descriptions with
  | error e =>
    simp only [hf] at h
    injection h with h1 h2
    cases h2
  | ok r =>
    simp only [hf] at h
    injection h with h1 h2
    subst h1
    have hre := exFold_flat_char processDescription (fun s => s.Reactions) descReactions
      (fun a x r' hf' => (processDescription_ok_char a x r' hf').1) rdf.Descriptions emptyRhea _ hf
    have hrp := exFold_flat_char processDescription (fun s => s.ReactiveParts) descReactiveParts
      (fun a x r' hf' => (processDescription_ok_char a x r' hf').2.1) rdf.Descriptions emptyRhea _ hf
    have hco := exFold_flat_char processDescription (fun s => s.Compounds) descCompounds
      (fun a x r' hf' => (processDescription_ok_char a x r' hf').2.2.1) rdf.Descriptions emptyRhea _ hf
    have hsi := exFold_flat_char processDescription (fun s => s.ReactionSides) descSides
      (fun a x r' hf' => (processDescription_ok_char a x r' hf').2.2.2) rdf.Descriptions emptyRhea _ hf
    exact ⟨hre, hrp, hco, hsi⟩

end OnePass

namespace OnePass

/-- The one-pass resolver fails exactly on unmarshal failure or on a
semantically bad contains entry somewhere in the input. -/
theorem ParseRhea_err_iff (u : List UInt8 → UnmarshalResult) (b : List UInt8) :
    (ParseRhea u b).2 ≠ none ↔
      ((∃ e, u b = UnmarshalResult.err e) ∨
        ∃ rdf, u b = UnmarshalResult.ok rdf ∧
          ∃ d ∈ rdf.Descriptions, ∃ cx ∈ d.ContainsX, badEntry cx) := by
  have hiff : ∀ rdf : RheaRdf,
      (∃ e, exFold processDescription emptyRhea rdf.Descriptions = .error e) ↔
      ∃ d ∈ rdf.Descriptions, ∃ cx ∈ d.ContainsX, badEntry cx :=
    fun rdf => exFold_err_iff processDescription _ (fun a d => processDescription_err_iff a d)
      rdf.Descriptions emptyRhea
  unfold ParseRhea
  cases hu : u b with
  | err e =>
    simp only [hu]
    constructor
    · intro _; exact Or.inl ⟨e, rfl⟩
    · intro _; simp
  | ok rdf =>
    simp only [hu]
    cases hf : exFold processDescription emptyRhea rdf.Descriptions with
    | ok r =>
      simp only [hf]
      constructor
      · intro hcon; simp at hcon
      · rintro (⟨e, he⟩ | ⟨rdf', hrdf', hbad⟩)
        · cases he
        · injection hrdf' with hr
          subst hr
          obtain ⟨e, he⟩ := (hiff rdf).2 hbad
          rw [hf] at he
          cases he
    | error e =>
      simp only [hf]
      constructor
      · intro _
        exact Or.inr ⟨rdf, rfl, (hiff rdf).1 ⟨e, hf⟩⟩
      · intro _; simp

/-- Whenever the one-pass resolver reports an error it returns the empty
aggregate. -/
theorem ParseRhea_err_empty (u : List UInt8 → UnmarshalResult) (b : List UInt8) (r : Rhea)
    (e : ParseError) (h : ParseRhea u b = (r, some e)) : r = emptyRhea := by
  unfold ParseRhea at h
  cases hu : u b with
  | err e' =>
    simp only [hu] at h
    injection h with h1 h2
    exact h1.symm
  | ok rdf =>
    simp only [hu] at h
    cases hf : exFold processDescription emptyRhea rdf.Descriptions with
    | ok r' =>
      simp only [hf] at h
      injection h with h1 h2
      cases h2
    | error e' =>
      simp only [hf] at h
      injection h with h1 h2
      exact h1.symm

end OnePass

namespace TwoPass

theorem goSliceLit_sm : goSlice "http://rdf.rhea-db.org/SmallMolecule" 23 = some "SmallMolecule" := by decide

theorem goSliceLit_poly : goSlice "http://rdf.rhea-db.org/Polymer" 23 = some "Polymer" := by decide

theorem goSliceLit_gp : goSlice "http://rdf.rhea-db.org/GenericPolypeptide" 23 = some "GenericPolypeptide" := by decide

theorem goSliceLit_gn : goSlice "http://rdf.rhea-db.org/GenericPolynucleotide" 23 = some "GenericPolynucleotide" := by decide

theorem goSliceLit_gh : goSlice "http://rdf.rhea-db.org/GenericHeteropolysaccharide" 23 = some "GenericHeteropolysaccharide" := by decide

/-- The first-pass subclass switch appends to `Reactions` exactly what
the shared per-assertion classifier produces. -/
theorem pass1Subclass_reactions (d : Description) (st : Pass1State) (sc : Subclass)
    (st' : Pass1State) (h : pass1Subclass d st sc = .ok st') :
    st'.rhea.Reactions = st.rhea.Reactions ++ (OnePass.reactionOf d sc).toList := by
  obtain ⟨res⟩ := sc
  by_cases h1 : res = uriDirectionalReaction
  · subst h1
    simp only [pass1Subclass, uriDirectionalReaction, uriBidirectionalReaction, uriSmallMolecule,
      uriPolymer, uriGenericPolypeptide, uriGenericPolynucleotide,
      uriGenericHeteropolysaccharide] at h
    cases h
    simp [OnePass.reactionOf, uriDirectionalReaction, uriBidirectionalReaction]
  by_cases h2 : res = uriBidirectionalReaction
  · subst h2
    simp only [pass1Subclass, uriDirectionalReaction, uriBidirectionalReaction, uriSmallMolecule,
      uriPolymer, uriGenericPolypeptide, uriGenericPolynucleotide,
      uriGenericHeteropolysaccharide] at h
    cases h
    simp [OnePass.reactionOf, uriDirectionalReaction, uriBidirectionalReaction]
  by_cases h3 : res = uriSmallMolecule
  · subst h3
    simp only [pass1Subclass, uriDirectionalReaction, uriBidirectionalReaction, uriSmallMolecule,
      uriPolymer, uriGenericPolypeptide, uriGenericPolynucleotide,
      uriGenericHeteropolysaccharide, goSliceLit_sm] at h
    cases h
    simp [OnePass.reactionOf, uriDirectionalReaction, uriBidirectionalReaction, uriSmallMolecule]
  by_cases h4 : res = uriPolymer
  · subst h4
    simp only [pass1Subclass, uriDirectionalReaction, uriBidirectionalReaction, uriSmallMolecule,
      uriPolymer, uriGenericPolypeptide, uriGenericPolynucleotide,
      uriGenericHeteropolysaccharide, goSliceLit_poly] at h
    cases h
    simp [OnePass.reactionOf, uriDirectionalReaction, uriBidirectionalReaction, uriPolymer]
  by_cases h5 : res = uriGenericPolypeptide
  · subst h5
    simp only [pass1Subclass, uriDirectionalReaction, uriBidirectionalReaction, uriSmallMolecule,
      uriPolymer, uriGenericPolypeptide, uriGenericPolynucleotide,
      uriGenericHeteropolysaccharide, goSliceLit_gp] at h
    cases h
    simp [OnePass.reactionOf, uriDirectionalReaction, uriBidirectionalReaction, uriGenericPolypeptide]
  by_cases h6 : res = uriGenericPolynucleotide
  · subst h6
    simp only [pass1Subclass, uriDirectionalReaction, uriBidirectionalReaction, uriSmallMolecule,
      uriPolymer, uriGenericPolypeptide, uriGenericPolynucleotide,
      uriGenericHeteropolysaccharide, goSliceLit_gn] at h
    cases h
    simp [OnePass.reactionOf, uriDirectionalReaction, uriBidirectionalReaction, uriGenericPolynucleotide]
  by_cases h7 : res = uriGenericHeteropolysaccharide
  · subst h7
    simp only [pass1Subclass, uriDirectionalReaction, uriBidirectionalReaction, uriSmallMolecule,
      uriPolymer, uriGenericPolypeptide, uriGenericPolynucleotide,
      uriGenericHeteropolysaccharide, goSliceLit_gh] at h
    cases h
    simp [OnePass.reactionOf, uriDirectionalReaction, uriBidirectionalReaction,
      uriGenericHeteropolysaccharide]
  · unfold pass1Subclass at h
    rw [if_neg h1, if_neg h2, if_neg (by simp [h3, h4]), if_neg (by simp [h5, h6, h7])] at h
    cases h
    simp [OnePass.reactionOf, h1, h2]

/-- The first-pass per-record body appends to `Reactions` exactly the
per-record reaction list; the map insertions touch only the maps. -/
theorem pass1Description_reactions (st : Pass1State) (d : Description) (st' : Pass1State)
    (h : pass1Description st d = .ok st') :
    st'.rhea.Reactions = st.rhea.Reactions ++
      flatMapL (fun sc => (OnePass.reactionOf d sc).toList) d.Subclass := by
  have key := exFold_flat_char (pass1Subclass d) (fun s => s.rhea.Reactions)
    (fun sc => (OnePass.reactionOf d sc).toList)
    (fun a x r' hf => pass1Subclass_reactions d a x r' hf) d.Subclass _ st' h
  refine key.trans ?_
  have harg : ∀ (x y : List Reaction), x = y →
      x ++ flatMapL (fun sc => (OnePass.reactionOf d sc).toList) d.Subclass =
      y ++ flatMapL (fun sc => (OnePass.reactionOf d sc).toList) d.Subclass := by
    intro x y hxy; rw [hxy]
  apply harg
  split_ifs <;> rfl

/-- The second-pass contains step never touches `Reactions`. -/
theorem pass2ContainsX_reactions (cm : GoMap String) (d : Description) (a : Rhea)
    (cx : ContainsX) (r : Rhea) (h : pass2ContainsX cm d a cx = .ok r) :
    r.Reactions = a.Reactions := by
  unfold pass2ContainsX at h
  by_cases hc : stringContains cx.XMLName.Local "contains" = true
  · rw [if_pos hc] at h
    cases hq : decodeContainsName cx.XMLName.Local with
    | error e => simp only [hq] at h; cases h
    | ok q => simp only [hq] at h; cases h; rfl
  · rw [if_neg hc] at h
    cases h
    rfl

/-- The second-pass subclass step never touches `Reactions`. -/
theorem pass2Subclass_reactions (cm : GoMap String) (rpm : GoMap ReactivePart)
    (d : Description) (a : Rhea) (sc : Subclass) (r : Rhea)
    (h : pass2Subclass cm rpm d a sc = .ok r) : r.Reactions = a.Reactions := by
  unfold pass2Subclass at h
  by_cases hc : sc.Resource = uriReactivePart
  · rw [if_pos hc] at h
    cases hl : mapLookup rpm (mapLookupD cm d.About) with
    | none => simp only [hl] at h; cases h
    | some rp => simp only [hl] at h; cases h; rfl
  · rw [if_neg hc] at h
    cases h
    rfl

/-- The whole second pass never touches `Reactions`. -/
theorem pass2Description_reactions (cm : GoMap String) (rpm : GoMap ReactivePart)
    (a : Rhea) (d : Description) (r : Rhea) (h : pass2Description cm rpm a d = .ok r) :
    r.Reactions = a.Reactions := by
  unfold pass2Description at h
  cases hs : exFold (pass2ContainsX cm d) a d.ContainsX with
  | error e => simp only [hs] at h; cases h
  | ok r1 =>
    simp only [hs] at h
    have ha := exFold_preserve (pass2Subclass cm rpm d) (fun s => s.Reactions)
      (fun a' x r' hf => pass2Subclass_reactions cm rpm d a' x r' hf) d.Subclass r1 r h
    have hb := exFold_preserve (pass2ContainsX cm d) (fun s => s.Reactions)
      (fun a' x r' hf => pass2ContainsX_reactions cm d a' x r' hf) d.ContainsX a r1 hs
    exact ha.trans hb

/-- On success, the two-pass resolver's `Reactions` collection is the
same per-assertion concatenation as the one-pass resolver's. -/
theorem ParseRhea_reactions_char (u : List UInt8 → UnmarshalResult) (b : List UInt8)
    (rdf : RheaRdf) (r : Rhea) (hu : u b = .ok rdf) (h : ParseRhea u b = (r, none)) :
    r.Reactions =
      flatMapL (fun d => flatMapL (fun sc => (OnePass.reactionOf d sc).toList) d.Subclass)
        rdf.Descriptions := by
  unfold ParseRhea at h
  rw [hu] at h
  cases h1 : exFold pass1Description {} rdf.Descriptions with
  | error e =>
    simp only [h1] at h
    injection h with ha hb
    cases hb
  | ok st =>
    simp only [h1] at h
    cases h2 : exFold (pass2Description st.compoundMap st.reactivePartMap) st.rhea
        rdf.Descriptions with
    | error e =>
      simp only [h2] at h
      injection h with ha hb
      cases hb
    | ok r2 =>
      simp only [h2] at h
      injection h with ha hb
      subst ha
      have p2 := exFold_preserve (pass2Description st.compoundMap st.reactivePartMap)
        (fun s => s.Reactions)
        (fun a x r' hf => pass2Description_reactions st.compoundMap st.reactivePartMap a x r' hf)
        rdf.Descriptions st.rhea _ h2
      have p1 := exFold_flat_char pass1Description (fun s => s.rhea.Reactions)
        (fun d => flatMapL (fun sc => (OnePass.reactionOf d sc).toList) d.Subclass)
        (fun a x r' hf => pass1Description_reactions a x r' hf) rdf.Descriptions {} st h1
      exact p2.trans p1

end TwoPass

namespace OnePass

theorem sContains_containsN : stringContains "containsN" "contains" = true := by decide

theorem sContains_contains2n : stringContains "contains2n" "contains" = true := by decide

theorem sContains_containsNminus1 : stringContains "containsNminus1" "contains" = true := by decide

theorem sContains_containsNplus1 : stringContains "containsNplus1" "contains" = true := by decide

theorem decode_containsN : decodeContainsName "containsN" =
    .ok { Contains := 1, ContainsN := true, Minus := false, Plus := false } := rfl

theorem decode_contains2n : decodeContainsName "contains2n" =
    .ok { Contains := 2, ContainsN := true, Minus := false, Plus := false } := rfl

theorem decode_containsNminus1 : decodeContainsName "containsNminus1" =
    .ok { Contains := 1, ContainsN := true, Minus := true, Plus := false } := rfl

theorem decode_containsNplus1 : decodeContainsName "containsNplus1" =
    .ok { Contains := 1, ContainsN := true, Minus := false, Plus := true } := rfl

theorem compoundOf_sm (d : Description) :
    compoundOf d { Resource := uriSmallMolecule } = some (newCompoundSMP d "SmallMolecule") := by
  simp [compoundOf, uriDirectionalReaction, uriBidirectionalReaction, uriSmallMolecule]

theorem compoundOf_poly (d : Description) :
    compoundOf d { Resource := uriPolymer } = some (newCompoundSMP d "Polymer") := by
  simp [compoundOf, uriDirectionalReaction, uriBidirectionalReaction, uriSmallMolecule, uriPolymer]

theorem rpOf_sm (d : Description) :
    rpOf d { Resource := uriSmallMolecule } = some (newReactivePartSMP d "SmallMolecule") := by
  simp [rpOf, uriDirectionalReaction, uriBidirectionalReaction, uriSmallMolecule]

theorem rpOf_poly (d : Description) :
    rpOf d { Resource := uriPolymer } = some (newReactivePartSMP d "Polymer") := by
  simp [rpOf, uriDirectionalReaction, uriBidirectionalReaction, uriSmallMolecule, uriPolymer]

theorem newRP_sm_chebi (d : Description) :
    (newReactivePartSMP d "SmallMolecule").Chebi = d.Chebi.Resource := by
  simp [newReactivePartSMP]

theorem newRP_poly_chebi (d : Description) :
    (newReactivePartSMP d "Polymer").Chebi = d.UnderlyingChebi.Resource := by
  simp [newReactivePartSMP]

theorem newRP_smp_subchebi (d : Description) (ct : String) :
    (newReactivePartSMP d ct).SubclassOfChebi = subclassChebi d := rfl

theorem standaloneRP_subchebi (d : Description) :
    (standaloneReactivePart d).SubclassOfChebi = "" := rfl

/-- Membership in the per-record compound list. -/
theorem mem_descCompounds (d : Description) (sc : Subclass) (hm : sc ∈ d.Subclass)
    (c : Compound) (hc : compoundOf d sc = some c) : c ∈ descCompounds d := by
  have : c ∈ flatMapL (fun s => (compoundOf d s).toList) d.Subclass := by
    rw [mem_flatMapL]
    exact ⟨sc, hm, by simp [hc]⟩
  exact this

/-- Membership in the per-record reactive-part list. -/
theorem mem_descReactiveParts (d : Description) (sc : Subclass) (hm : sc ∈ d.Subclass)
    (rp : ReactivePart) (hc : rpOf d sc = some rp) : rp ∈ descReactiveParts d := by
  have : rp ∈ flatMapL (fun s => (rpOf d s).toList) d.Subclass := by
    rw [mem_flatMapL]
    exact ⟨sc, hm, by simp [hc]⟩
  exact this

/-- Per-record compounds land in the successful output aggregate. -/
theorem mem_parse_compounds (u : List UInt8 → UnmarshalResult) (b : List UInt8) (rdf : RheaRdf)
    (rhea : Rhea) (hu : u b = .ok rdf) (h : ParseRhea u b = (rhea, none)) (d : Description)
    (hd : d ∈ rdf.Descriptions) (c : Compound) (hc : c ∈ descCompounds d) :
    c ∈ rhea.Compounds := by
  rw [(ParseRhea_ok_char u b rdf rhea hu h).2.2.1, mem_flatMapL]
  exact ⟨d, hd, hc⟩

/-- Per-record reactive parts land in the successful output aggregate. -/
theorem mem_parse_reactiveParts (u : List UInt8 → UnmarshalResult) (b : List UInt8)
    (rdf : RheaRdf) (rhea : Rhea) (hu : u b = .ok rdf) (h : ParseRhea u b = (rhea, none))
    (d : Description) (hd : d ∈ rdf.Descriptions) (rp : ReactivePart)
    (hc : rp ∈ descReactiveParts d) : rp ∈ rhea.ReactiveParts := by
  rw [(ParseRhea_ok_char u b rdf rhea hu h).2.1, mem_flatMapL]
  exact ⟨d, hd, hc⟩

end OnePass

/-- A fold that overwrites on every match returns its initial value when
nothing matches. -/
theorem chebiFold_no_match : ∀ (l : List Subclass) (init : String),
    (∀ sc ∈ l, stringContains sc.Resource "CHEBI" = false) →
    l.foldl (fun s sc => if stringContains sc.Resource "CHEBI" then sc.Resource else s) init = init := by
  intro l
  induction l with
  | nil => intro init _; rfl
  | cons a t ih =>
    intro init hall
    have ha := hall a (List.mem_cons_self a t)
    simp only [List.foldl_cons, ha]
    simpa using ih init (fun sc hsc => hall sc (List.mem_cons_of_mem a hsc))

/-- A fold that overwrites on every match returns the last matching
value when one exists. -/
theorem chebiFold_mem : ∀ (l : List Subclass) (init : String),
    (∃ sc ∈ l, stringContains sc.Resource "CHEBI" = true) →
    ∃ sc ∈ l, stringContains sc.Resource "CHEBI" = true ∧
      l.foldl (fun s sc => if stringContains sc.Resource "CHEBI" then sc.Resource else s) init =
        sc.Resource := by
  intro l
  induction l with
  | nil => intro init h; simp at h
  | cons a t ih =>
    intro init hex
    by_cases hext : ∃ sc ∈ t, stringContains sc.Resource "CHEBI" = true
    · obtain ⟨sc, hm, hp, hfold⟩ := ih _ hext
      exact ⟨sc, List.mem_cons_of_mem a hm, hp, by simpa using hfold⟩
    · have hallt : ∀ sc ∈ t, stringContains sc.Resource "CHEBI" = false := by
        intro sc hsc
        by_contra hcon
        exact hext ⟨sc, hsc, by simpa using hcon⟩
      have hpa : stringContains a.Resource "CHEBI" = true := by
        obtain ⟨sc, hm, hp⟩ := hex
        rcases List.mem_cons.1 hm with rfl | hm2
        · exact hp
        · rw [hallt sc hm2] at hp; cases hp
      refine ⟨a, List.mem_cons_self a t, hpa, ?_⟩
      simp only [List.foldl_cons, hpa, if_true]
      exact chebiFold_no_match t a.Resource hallt

/-- When any subclass value carries the CHEBI marker, `subclassChebi`
returns one of the carrying values (the last one). -/
theorem subclassChebi_mem (d : Description)
    (hex : ∃ sc ∈ d.Subclass, stringContains sc.Resource "CHEBI" = true) :
    ∃ sc ∈ d.Subclass, stringContains sc.Resource "CHEBI" = true ∧
      subclassChebi d = sc.Resource :=
  chebiFold_mem d.Subclass "" hex

/-! ### Claim theorems -/

/-- Claim C1: for every record and open-bag entry, the four literal
contains-names decode to exactly one appended ReactionSide with the
table's multiplicity, indefinite, minus and plus values, and any other
decoded suffix that parses as a decimal integer k yields multiplicity k
with all flags false; in every case the ReactionSide's Accession is the
record's About identifier and its Compound is the entry's attribute
value. -/
theorem c1_contains_decode_table (d : Description) (acc : OnePass.Rhea) (cx : ContainsX) :
    (cx.XMLName.Local = "containsN" →
      OnePass.applyContainsX d acc cx = .ok { acc with ReactionSides := acc.ReactionSides ++
        [{ Accession := d.About, Contains := 1, ContainsN := true, Minus := false, Plus := false,
           Compound := cx.Content }] }) ∧
    (cx.XMLName.Local = "contains2n" →
      OnePass.applyContainsX d acc cx = .ok { acc with ReactionSides := acc.ReactionSides ++
        [{ Accession := d.About, Contains := 2, ContainsN := true, Minus := false, Plus := false,
           Compound := cx.Content }] }) ∧
    (cx.XMLName.Local = "containsNminus1" →
      OnePass.applyContainsX d acc cx = .ok { acc with ReactionSides := acc.ReactionSides ++
        [{ Accession := d.About, Contains := 1, ContainsN := true, Minus := true, Plus := false,
           Compound := cx.Content }] }) ∧
    (cx.XMLName.Local = "containsNplus1" →
      OnePass.applyContainsX d acc cx = .ok { acc with ReactionSides := acc.ReactionSides ++
        [{ Accession := d.About, Contains := 1, ContainsN := true, Minus := false, Plus := true,
           Compound := cx.Content }] }) ∧
    (∀ k : Int, stringContains cx.XMLName.Local "contains" = true →
      cx.XMLName.Local ≠ "containsN" → cx.XMLName.Local ≠ "contains2n" →
      cx.XMLName.Local ≠ "containsNminus1" → cx.XMLName.Local ≠ "containsNplus1" →
      goAtoi (dropStr cx.XMLName.Local 8) = some k →
      OnePass.applyContainsX d acc cx = .ok { acc with ReactionSides := acc.ReactionSides ++
        [{ Accession := d.About, Contains := k, ContainsN := false, Minus := false, Plus := false,
           Compound := cx.Content }] }) := by
  refine ⟨?_, ?_, ?_, ?_, ?_⟩
  · intro h
    unfold OnePass.applyContainsX
    rw [h, if_pos OnePass.sContains_containsN, OnePass.decode_containsN]
  · intro h
    unfold OnePass.applyContainsX
    rw [h, if_pos OnePass.sContains_contains2n, OnePass.decode_contains2n]
  · intro h
    unfold OnePass.applyContainsX
    rw [h, if_pos OnePass.sContains_containsNminus1, OnePass.decode_containsNminus1]
  · intro h
    unfold OnePass.applyContainsX
    rw [h, if_pos OnePass.sContains_containsNplus1, OnePass.decode_containsNplus1]
  · intro k hc h1 h2 h3 h4 hk
    unfold OnePass.applyContainsX
    rw [if_pos hc, decodeContainsName.eq_def, if_neg h1, if_neg h2, if_neg h3, if_neg h4]
    simp only [stringContains_goSlice8 _ hc, hk]

/-- Claim C1 witness: the literal `containsN` case and the numeric
`contains5` case on a concrete record. -/
theorem c1_witness :
    OnePass.applyContainsX dSides OnePass.emptyRhea
        { XMLName := { Local := "containsN" }, Content := "c1" } =
      .ok { OnePass.emptyRhea with ReactionSides :=
        [{ Accession := dSides.About, Contains := 1, ContainsN := true, Minus := false,
           Plus := false, Compound := "c1" }] } ∧
    OnePass.applyContainsX dSides OnePass.emptyRhea
        { XMLName := { Local := "contains5" }, Content := "c5" } =
      .ok { OnePass.emptyRhea with ReactionSides :=
        [{ Accession := dSides.About, Contains := 5, ContainsN := false, Minus := false,
           Plus := false, Compound := "c5" }] } :=
  ⟨(c1_contains_decode_table dSides OnePass.emptyRhea _).1 rfl,
   (c1_contains_decode_table dSides OnePass.emptyRhea _).2.2.2.2 5 (by decide) (by decide)
     (by decide) (by decide) (by decide) (by decide)⟩

/-- Claim C2: the one-pass resolver errs exactly when the bytes fail to
unmarshal or some gated contains entry is neither a literal form nor a
decimal integer; and every error outcome carries the empty aggregate. -/
theorem c2_error_iff_and_empty (u : List UInt8 → UnmarshalResult) (b : List UInt8) :
    ((OnePass.ParseRhea u b).2 ≠ none ↔
      ((∃ e, u b = UnmarshalResult.err e) ∨
        ∃ rdf, u b = UnmarshalResult.ok rdf ∧
          ∃ d ∈ rdf.Descriptions, ∃ cx ∈ d.ContainsX, OnePass.badEntry cx)) ∧
    (∀ r e, OnePass.ParseRhea u b = (r, some e) → r = OnePass.emptyRhea) :=
  ⟨OnePass.ParseRhea_err_iff u b,
   fun r e h => OnePass.ParseRhea_err_empty u b r e h⟩

/-- Claim C2 witness: an unmarshal failure errs with the empty
aggregate, and a bad contains suffix errs as well. -/
theorem c2_witness :
    (OnePass.ParseRhea uErr []).2 ≠ none ∧
    (OnePass.ParseRhea uErr []).1 = OnePass.emptyRhea ∧
    (OnePass.ParseRhea (uOf rdfBadName) []).2 ≠ none :=
  ⟨(c2_error_iff_and_empty uErr []).1.2 (Or.inl ⟨"unexpected EOF", rfl⟩),
   (c2_error_iff_and_empty uErr []).2 _ (ParseError.xmlErr "unexpected EOF") rfl,
   (c2_error_iff_and_empty (uOf rdfBadName) []).1.2 (Or.inr ⟨rdfBadName, rfl, by decide⟩)⟩

/-- Claim C3 counterexample: a record whose subclass list carries the
`DirectionalReaction` assertion twice yields two Reactions, not exactly
one. -/
theorem c3_counterexample :
    (∃ sc ∈ dDirDup.Subclass, sc.Resource = uriDirectionalReaction) ∧
    (OnePass.ParseRhea (uOf rdfDup) []).2 = none ∧
    (OnePass.ParseRhea (uOf rdfDup) []).1.Reactions.length = 2 := by decide

/-- Counting helper: one reaction per matching subclass assertion. -/
theorem descReactions_length (d : Description) :
    (OnePass.descReactions d).length =
    (d.Subclass.filter (fun sc => sc.Resource = uriDirectionalReaction ||
      sc.Resource = uriBidirectionalReaction)).length := by
  unfold OnePass.descReactions
  generalize d.Subclass = l
  induction l with
  | nil => rfl
  | cons sc t ih =>
    by_cases hd : sc.Resource = uriDirectionalReaction
    · have h1 : OnePass.reactionOf d sc = some (newReactionOf d true) := by
        simp [OnePass.reactionOf, hd, uriDirectionalReaction]
      simp only [flatMapL, List.length_append, h1, List.filter_cons]
      simp [hd, ih]
      omega
    by_cases hb : sc.Resource = uriBidirectionalReaction
    · have h1 : OnePass.reactionOf d sc = some (newReactionOf d false) := by
        simp [OnePass.reactionOf, hd, hb, uriDirectionalReaction, uriBidirectionalReaction]
      simp only [flatMapL, List.length_append, h1, List.filter_cons]
      simp [hd, hb, ih]
      omega
    · have h1 : OnePass.reactionOf d sc = none := by
        simp [OnePass.reactionOf, hd, hb]
      simp only [flatMapL, List.length_append, h1, List.filter_cons]
      simp [hd, hb, ih]

/-- Claim C3 (amended): on success the Reactions collection holds, in
encounter order, one Reaction per `DirectionalReaction` or
`BidirectionalReaction` assertion occurrence (Directional true resp.
false), so a record with a duplicated assertion yields two Reactions
rather than one. -/
theorem c3_amended (u : List UInt8 → UnmarshalResult) (b : List UInt8) (rdf : RheaRdf)
    (rhea : OnePass.Rhea) (hu : u b = .ok rdf) (h : OnePass.ParseRhea u b = (rhea, none)) :
    rhea.Reactions = flatMapL OnePass.descReactions rdf.Descriptions ∧
    ∀ d : Description, (OnePass.descReactions d).length =
      (d.Subclass.filter (fun sc => sc.Resource = uriDirectionalReaction ||
        sc.Resource = uriBidirectionalReaction)).length :=
  ⟨(OnePass.ParseRhea_ok_char u b rdf rhea hu h).1, fun d => descReactions_length d⟩

/-- Claim C3 witness: the amended characterization applied to the
duplicated-assertion fixture. -/
theorem c3_witness :
    (OnePass.ParseRhea (uOf rdfDup) []).1.Reactions =
      flatMapL OnePass.descReactions rdfDup.Descriptions ∧
    (OnePass.descReactions dDirDup).length =
      (dDirDup.Subclass.filter (fun sc => sc.Resource = uriDirectionalReaction ||
        sc.Resource = uriBidirectionalReaction)).length := by
  have h := c3_amended (uOf rdfDup) [] rdfDup ((OnePass.ParseRhea (uOf rdfDup) []).1) rfl rfl
  exact ⟨h.1, h.2 dDirDup⟩

/-- Claim C4 counterexample: the tag `xcontains1` does not begin with
`contains`, yet the resolver neither ignores it nor stays error-free —
it aborts with the Atoi error on the offset-8 suffix `s1` (the gate is
substring containment, not a prefix test). -/
theorem c4_counterexample :
    strStartsWith "xcontains1" "contains" = false ∧
    (∃ d ∈ rdfBadName.Descriptions, ∃ cx ∈ d.ContainsX, cx.XMLName.Local = "xcontains1") ∧
    (OnePass.ParseRhea (uOf rdfBadName) []).2 = some (ParseError.atoiErr "s1") := by decide

/-- Claim C4 (amended): an open-bag entry is decoded (or raises the
fatal suffix error) precisely when its tag name CONTAINS the substring
`contains`; entries whose names do not contain it are ignored with
neither entity nor error. -/
theorem c4_amended (d : Description) (acc : OnePass.Rhea) (cx : ContainsX) :
    (stringContains cx.XMLName.Local "contains" = false →
      OnePass.applyContainsX d acc cx = .ok acc) ∧
    (stringContains cx.XMLName.Local "contains" = true →
      (∃ e, OnePass.applyContainsX d acc cx = .error e) ∨
      ∃ side, OnePass.applyContainsX d acc cx =
        .ok { acc with ReactionSides := acc.ReactionSides ++ [side] }) := by
  constructor
  · intro hfalse
    unfold OnePass.applyContainsX
    rw [if_neg (by simp [hfalse])]
  · intro hc
    cases hq : decodeContainsName cx.XMLName.Local with
    | error e =>
      exact Or.inl ⟨e, by unfold OnePass.applyContainsX; rw [if_pos hc]; simp [hq]⟩
    | ok q =>
      refine Or.inr ⟨{ Accession := d.About, Contains := q.Contains, ContainsN := q.ContainsN, Minus := q.Minus, Plus := q.Plus, Compound := cx.Content }, ?_⟩
      unfold OnePass.applyContainsX
      rw [if_pos hc]
      simp [hq]

/-- Claim C4 witness: an entry named `charge` is ignored, and a gated
entry named `containsN` produces exactly one appended side. -/
theorem c4_witness :
    OnePass.applyContainsX dSides OnePass.emptyRhea
      { XMLName := { Local := "charge" }, Content := "x" } = .ok OnePass.emptyRhea ∧
    ((∃ e, OnePass.applyContainsX dSides OnePass.emptyRhea
        { XMLName := { Local := "containsN" }, Content := "c" } = .error e) ∨
      ∃ side, OnePass.applyContainsX dSides OnePass.emptyRhea
        { XMLName := { Local := "containsN" }, Content := "c" } =
        .ok { OnePass.emptyRhea with ReactionSides := OnePass.emptyRhea.ReactionSides ++ [side] }) :=
  ⟨(c4_amended dSides OnePass.emptyRhea _).1 (by decide),
   (c4_amended dSides OnePass.emptyRhea _).2 (by decide)⟩

/-- Claim C5: a record asserting `SmallMolecule` contributes both a
Compound of kind SmallMolecule and a ReactivePart whose chemical
reference is the record's direct chebi field; a record asserting
`Polymer` contributes a ReactivePart whose chemical reference is the
underlying chebi field instead. -/
theorem c5_small_molecule_polymer (u : List UInt8 → UnmarshalResult) (b : List UInt8)
    (rdf : RheaRdf) (rhea : OnePass.Rhea) (d : Description) (hu : u b = .ok rdf)
    (h : OnePass.ParseRhea u b = (rhea, none)) (hd : d ∈ rdf.Descriptions) :
    ((∃ sc ∈ d.Subclass, sc.Resource = uriSmallMolecule) →
      OnePass.newCompoundSMP d "SmallMolecule" ∈ rhea.Compounds ∧
      (OnePass.newCompoundSMP d "SmallMolecule").CompoundType = "SmallMolecule" ∧
      OnePass.newReactivePartSMP d "SmallMolecule" ∈ rhea.ReactiveParts ∧
      (OnePass.newReactivePartSMP d "SmallMolecule").Chebi = d.Chebi.Resource) ∧
    ((∃ sc ∈ d.Subclass, sc.Resource = uriPolymer) →
      OnePass.newReactivePartSMP d "Polymer" ∈ rhea.ReactiveParts ∧
      (OnePass.newReactivePartSMP d "Polymer").Chebi = d.UnderlyingChebi.Resource) := by
  constructor
  · rintro ⟨⟨r⟩, hm, hres⟩
    have hr : r = uriSmallMolecule := hres
    subst hr
    refine ⟨?_, rfl, ?_, OnePass.newRP_sm_chebi d⟩
    · exact OnePass.mem_parse_compounds u b rdf rhea hu h d hd _
        (OnePass.mem_descCompounds d _ hm _ (OnePass.compoundOf_sm d))
    · exact OnePass.mem_parse_reactiveParts u b rdf rhea hu h d hd _
        (OnePass.mem_descReactiveParts d _ hm _ (OnePass.rpOf_sm d))
  · rintro ⟨⟨r⟩, hm, hres⟩
    have hr : r = uriPolymer := hres
    subst hr
    refine ⟨?_, OnePass.newRP_poly_chebi d⟩
    exact OnePass.mem_parse_reactiveParts u b rdf rhea hu h d hd _
      (OnePass.mem_descReactiveParts d _ hm _ (OnePass.rpOf_poly d))

/-- Claim C5 witness: the small-molecule and polymer fixtures. -/
theorem c5_witness :
    OnePass.newCompoundSMP dSM "SmallMolecule" ∈ (OnePass.ParseRhea (uOf rdfSM) []).1.Compounds ∧
    (OnePass.newReactivePartSMP dSM "SmallMolecule").Chebi = dSM.Chebi.Resource ∧
    OnePass.newReactivePartSMP dPoly "Polymer" ∈ (OnePass.ParseRhea (uOf rdfSM) []).1.ReactiveParts ∧
    (OnePass.newReactivePartSMP dPoly "Polymer").Chebi = dPoly.UnderlyingChebi.Resource := by
  have hsm := (c5_small_molecule_polymer (uOf rdfSM) [] rdfSM
    ((OnePass.ParseRhea (uOf rdfSM) []).1) dSM rfl rfl (by decide)).1 (by decide)
  have hpoly := (c5_small_molecule_polymer (uOf rdfSM) [] rdfSM
    ((OnePass.ParseRhea (uOf rdfSM) []).1) dPoly rfl rfl (by decide)).2 (by decide)
  exact ⟨hsm.1, hsm.2.2.2, hpoly.1, hpoly.2⟩

/-- Claim C6 counterexample: a standalone ReactivePart record whose
subclass list carries a CHEBI value still gets an empty
`SubclassOfChebi`: the CHEBI-population loop runs only in the
SmallMolecule/Polymer branch. -/
theorem c6_counterexample :
    (∃ sc ∈ dRPChebi.Subclass, stringContains sc.Resource "CHEBI" = true) ∧
    (OnePass.ParseRhea (uOf rdfRPChebi) []).2 = none ∧
    (OnePass.ParseRhea (uOf rdfRPChebi) []).1.ReactiveParts =
      [OnePass.standaloneReactivePart dRPChebi] ∧
    (∀ rp ∈ (OnePass.ParseRhea (uOf rdfRPChebi) []).1.ReactiveParts,
      rp.SubclassOfChebi = "" ∧
      rp.SubclassOfChebi ≠ "http://purl.obolibrary.org/obo/CHEBI_16991") := by decide

/-- Claim C6 (amended): the CHEBI-marked subclass value populates
`SubclassOfChebi` only for the SmallMolecule and Polymer kinds (taking
the last marked value); a standalone ReactivePart record leaves the
field empty. -/
theorem c6_amended (d : Description) :
    ((OnePass.newReactivePartSMP d "SmallMolecule").SubclassOfChebi = subclassChebi d ∧
     (OnePass.newReactivePartSMP d "Polymer").SubclassOfChebi = subclassChebi d ∧
     (OnePass.standaloneReactivePart d).SubclassOfChebi = "") ∧
    ((∃ sc ∈ d.Subclass, stringContains sc.Resource "CHEBI" = true) →
      ∃ sc ∈ d.Subclass, stringContains sc.Resource "CHEBI" = true ∧
        subclassChebi d = sc.Resource) :=
  ⟨⟨rfl, rfl, rfl⟩, subclassChebi_mem d⟩

/-- Claim C6 witness: the amended claim applied to the fixture that
carries a CHEBI subclass value on a standalone ReactivePart record. -/
theorem c6_witness :
    (OnePass.standaloneReactivePart dRPChebi).SubclassOfChebi = "" ∧
    ∃ sc ∈ dRPChebi.Subclass, stringContains sc.Resource "CHEBI" = true ∧
      subclassChebi dRPChebi = sc.Resource :=
  ⟨(c6_amended dRPChebi).1.2.2, (c6_amended dRPChebi).2 (by decide)⟩

/-- Claim C7: every ReactionSide in the output aggregate keeps Minus and
Plus mutually exclusive, and either flag forces ContainsN. -/
theorem c7_side_invariant (u : List UInt8 → UnmarshalResult) (b : List UInt8)
    (side : OnePass.ReactionSide) (h : side ∈ (OnePass.ParseRhea u b).1.ReactionSides) :
    ¬(side.Minus = true ∧ side.Plus = true) ∧
    ((side.Minus = true ∨ side.Plus = true) → side.ContainsN = true) := by
  rcases hP : OnePass.ParseRhea u b with ⟨r, e⟩
  rw [hP] at h
  cases e with
  | some e' =>
    rw [OnePass.ParseRhea_err_empty u b r e' hP] at h
    simp [OnePass.emptyRhea] at h
  | none =>
    cases hu : u b with
    | err e2 =>
      unfold OnePass.ParseRhea at hP
      simp only [hu] at hP
      injection hP with h1 h2
      cases h2
    | ok rdf =>
      have char := OnePass.ParseRhea_ok_char u b rdf r hu hP
      rw [char.2.2.2, mem_flatMapL] at h
      obtain ⟨d, hd, hside⟩ := h
      have hside2 : side ∈ flatMapL (fun cx => (OnePass.sideOf d cx).toList) d.ContainsX := hside
      rw [mem_flatMapL] at hside2
      obtain ⟨cx, hcx, hmem⟩ := hside2
      unfold OnePass.sideOf at hmem
      by_cases hc : stringContains cx.XMLName.Local "contains" = true
      · rw [if_pos hc] at hmem
        cases hq : decodeContainsName cx.XMLName.Local with
        | error e3 => simp only [hq] at hmem; simp at hmem
        | ok q =>
          simp only [hq] at hmem
          simp at hmem
          subst hmem
          have hflags := OnePass.decodeContainsName_flags _ _ hq
          exact hflags
      · rw [if_neg hc] at hmem
        simp at hmem

/-- Claim C7 witness: the minus-variant side decoded from the concrete
fixture satisfies the invariant. -/
theorem c7_witness :
    ({ Accession := dSides.About, Contains := 1, ContainsN := true, Minus := true, Plus := false, Compound := "http://rdf.rhea-db.org/Participant_C" } : OnePass.ReactionSide) ∈
      (OnePass.ParseRhea (uOf rdfSides) []).1.ReactionSides ∧
    ¬(true = true ∧ false = true) :=
  ⟨by decide,
   (c7_side_invariant (uOf rdfSides) []
      { Accession := dSides.About, Contains := 1, ContainsN := true, Minus := true, Plus := false, Compound := "http://rdf.rhea-db.org/Participant_C" }
      (by decide)).1⟩

/-- Claim C8: the resolver is a pure function, so resolving the same
byte sequence twice gives the same error outcome and identical
collections in identical order. -/
theorem c8_deterministic (u : List UInt8 → UnmarshalResult) (b : List UInt8)
    (r1 r2 : OnePass.Rhea × Option ParseError)
    (h1 : OnePass.ParseRhea u b = r1) (h2 : OnePass.ParseRhea u b = r2) :
    r1.2 = r2.2 ∧ r1.1.Reactions = r2.1.Reactions ∧ r1.1.Compounds = r2.1.Compounds ∧
    r1.1.ReactiveParts = r2.1.ReactiveParts ∧ r1.1.ReactionSides = r2.1.ReactionSides := by
  subst h1
  subst h2
  exact ⟨rfl, rfl, rfl, rfl, rfl⟩

/-- Claim C8 witness: both invocations on the concrete fixture agree. -/
theorem c8_witness :
    (OnePass.ParseRhea (uOf rdfSides) []).2 = (OnePass.ParseRhea (uOf rdfSides) []).2 ∧
    (OnePass.ParseRhea (uOf rdfSides) []).1.Reactions =
      (OnePass.ParseRhea (uOf rdfSides) []).1.Reactions ∧
    (OnePass.ParseRhea (uOf rdfSides) []).1.Compounds =
      (OnePass.ParseRhea (uOf rdfSides) []).1.Compounds ∧
    (OnePass.ParseRhea (uOf rdfSides) []).1.ReactiveParts =
      (OnePass.ParseRhea (uOf rdfSides) []).1.ReactiveParts ∧
    (OnePass.ParseRhea (uOf rdfSides) []).1.ReactionSides =
      (OnePass.ParseRhea (uOf rdfSides) []).1.ReactionSides :=
  c8_deterministic (uOf rdfSides) [] _ _ rfl rfl

/-- Claim C9: whenever both resolver variants succeed on the same
decoded input, their Reactions collections agree element for element. -/
theorem c9_reactions_agree (u : List UInt8 → UnmarshalResult) (b : List UInt8)
    (h1 : (OnePass.ParseRhea u b).2 = none) (h2 : (TwoPass.ParseRhea u b).2 = none) :
    (OnePass.ParseRhea u b).1.Reactions = (TwoPass.ParseRhea u b).1.Reactions := by
  cases hu : u b with
  | err e =>
    exfalso
    unfold OnePass.ParseRhea at h1
    simp only [hu] at h1
    cases h1
  | ok rdf =>
    have ho : OnePass.ParseRhea u b = ((OnePass.ParseRhea u b).1, none) := by rw [← h1]
    have ht : TwoPass.ParseRhea u b = ((TwoPass.ParseRhea u b).1, none) := by rw [← h2]
    have c1 := OnePass.ParseRhea_ok_char u b rdf _ hu ho
    have c2 := TwoPass.ParseRhea_reactions_char u b rdf _ hu ht
    rw [c1.1, c2]
    rfl

/-- Claim C9 witness: both variants resolve the duplicated-assertion
fixture without error to the same Reactions. -/
theorem c9_witness :
    (OnePass.ParseRhea (uOf rdfDup) []).1.Reactions =
      (TwoPass.ParseRhea (uOf rdfDup) []).1.Reactions :=
  c9_reactions_agree (uOf rdfDup) [] (by decide) (by decide)

/-- Claim C10: the out-of-range-slice branch of the total embedding is
unreachable: the one-pass resolver never reports `sliceErr`, because the
offset-8 suffix is only taken under the substring gate (length at least
8) and the offset-23 suffix only on exact matches of the fixed 23-byte
prefixed type URIs. -/
theorem c10_no_slice_error (u : List UInt8 → UnmarshalResult) (b : List UInt8) :
    (OnePass.ParseRhea u b).2 ≠ some ParseError.sliceErr := by
  unfold OnePass.ParseRhea
  cases hu : u b with
  | err e => simp
  | ok rdf =>
    cases hf : exFold OnePass.processDescription OnePass.emptyRhea rdf.Descriptions with
    | ok r => simp [hf]
    | error e =>
      simp only [hf]
      obtain ⟨s, hs⟩ := exFold_err_val OnePass.processDescription
        (fun e' => ∃ s, e' = ParseError.atoiErr s)
        (fun a d e' he' => OnePass.processDescription_err_val a d e' he')
        rdf.Descriptions OnePass.emptyRhea e hf
      subst hs
      simp

/-- Claim C10 witness: concrete resolutions never yield the slice
error. -/
theorem c10_witness :
    (OnePass.ParseRhea (uOf rdfSides) []).2 ≠ some ParseError.sliceErr ∧
    (OnePass.ParseRhea (uOf rdfBadName) []).2 ≠ some ParseError.sliceErr :=
  ⟨c10_no_slice_error (uOf rdfSides) [], c10_no_slice_error (uOf rdfBadName) []⟩
